import Mathlib

/-!
# Kernel object base: reference counting, downcast, diagnostics

Shallow embedding of `src/core/hle/kernel/object.h` and of the resolution
helpers of `src/yuzu/configuration/configure_graphics.cpp`.

* `u32` values are natural numbers below `2 ^ 32`; every atomic update
  reduces modulo `2 ^ 32`.
* `delete object` is modelled by the absence of the object: a function that
  may delete returns `Option Object`, `none` meaning "destroyed".
* A `float` is its IEEE-754 binary32 bit pattern; comparisons go through the
  decoded value.
-/

namespace Kernel

/-- Number of values of the C++ type `u32`. -/
def U32_SIZE : Nat := 2 ^ 32

/-- `enum class HandleType : u32` (object.h, lines 20-33). -/
inductive HandleType where
  | Unknown
  | WritableEvent
  | ReadableEvent
  | SharedMemory
  | TransferMemory
  | Thread
  | Process
  | ResourceLimit
  | ClientPort
  | ServerPort
  | ClientSession
  | ServerSession
  deriving DecidableEq, Repr

/-- `enum class ResetType` (object.h, lines 35-38). -/
inductive ResetType where
  | OneShot
  | Sticky
  deriving DecidableEq, Repr

/-- `std::atomic<u32>::load`: the value read, and the (unchanged) stored value. -/
def atomic_load (stored : Nat) : Nat × Nat :=
  (stored, stored)

/-- `std::atomic<u32>::fetch_add`: the value held before the call, and the new
stored value, computed in `u32` arithmetic. -/
def atomic_fetch_add (stored arg : Nat) : Nat × Nat :=
  (stored, (stored + arg) % U32_SIZE)

/-- `std::atomic<u32>::fetch_sub`: the value held before the call, and the new
stored value, computed in `u32` arithmetic. -/
def atomic_fetch_sub (stored arg : Nat) : Nat × Nat :=
  (stored, (stored + (U32_SIZE - arg % U32_SIZE)) % U32_SIZE)

/-- State of `class Object` (object.h, lines 40-74) as seen through a base
pointer.  `ref_count` and `object_id` are the two private atomics.  The three
remaining fields describe the dynamic type of the object: what its override of
the pure virtual `GetHandleType()` returns, and what its overrides of
`GetTypeName()` / `GetName()` return, when the concrete kind has them. -/
structure Object where
  ref_count : Nat
  object_id : Nat
  handle_type : HandleType
  type_name_override : Option String
  name_override : Option String
  deriving DecidableEq, Repr

/-- Both atomics hold `u32` values. -/
def Object.WellFormed (o : Object) : Prop :=
  o.ref_count < U32_SIZE ∧ o.object_id < U32_SIZE

/-- `Object::GetObjectId` (object.h, lines 46-48): a relaxed load of
`object_id`.  Returns the value read and the object state after the call. -/
def Object.GetObjectId (o : Object) : Nat × Object :=
  let r := atomic_load o.object_id
  (r.1, { o with object_id := r.2 })

/-- Body of the base implementation `Object::GetTypeName` (object.h, lines 50-52). -/
def Object.baseGetTypeName (_o : Object) : String :=
  "[BAD KERNEL OBJECT TYPE]"

/-- Body of the base implementation `Object::GetName` (object.h, lines 53-55). -/
def Object.baseGetName (_o : Object) : String :=
  "[UNKNOWN KERNEL OBJECT]"

/-- Virtual call `object->GetTypeName()`: the override of the concrete kind
when it has one, the base implementation otherwise. -/
def Object.GetTypeName (o : Object) : String :=
  match o.type_name_override with
  | some s => s
  | none => o.baseGetTypeName

/-- Virtual call `object->GetName()`. -/
def Object.GetName (o : Object) : String :=
  match o.name_override with
  | some s => s
  | none => o.baseGetName

/-- Virtual call `object->GetHandleType()` (pure virtual in the base class,
object.h line 56). -/
def Object.GetHandleType (o : Object) : HandleType :=
  o.handle_type

/-- `intrusive_ptr_add_ref` (object.h, lines 77-79). -/
def intrusive_ptr_add_ref (object : Object) : Object :=
  { object with ref_count := (atomic_fetch_add object.ref_count 1).2 }

/-- `intrusive_ptr_release` (object.h, lines 81-85).  The result is `none`
when `delete object` ran, and the updated object otherwise. -/
def intrusive_ptr_release (object : Object) : Option Object :=
  let r := atomic_fetch_sub object.ref_count 1
  if r.1 = 1 then none else some { object with ref_count := r.2 }

/-- The value that the `fetch_sub` inside `intrusive_ptr_release` returns,
that is the count the release observes before decrementing. -/
def releaseObserves (object : Object) : Nat :=
  (atomic_fetch_sub object.ref_count 1).1

/-! ### Sequences of acquire / release operations on one object -/

/-- One reference-counting operation applied to an object through a pointer. -/
inductive RefOp where
  | acquire
  | release
  deriving DecidableEq, Repr

/-- Applies one operation to a live object; `none` when the operation
destroyed it. -/
def step (o : Object) : RefOp → Option Object
  | .acquire => some (intrusive_ptr_add_ref o)
  | .release => intrusive_ptr_release o

/-- Runs a sequence of operations from the state `s` (`some o`: the object is
alive in state `o`; `none`: it has been destroyed).  The outer `Option` is
`none` when some operation of the sequence would have to dereference the
object after its destruction, which has no defined behaviour. -/
def run : Option Object → List RefOp → Option (Option Object)
  | s, [] => some s
  | none, _ :: _ => none
  | some o, op :: ops => run (step o op) ops

/-- The counts observed, in order, by the releases of a sequence that are
applied to the live object. -/
def releaseObservations : Option Object → List RefOp → List Nat
  | _, [] => []
  | none, _ :: _ => []
  | some o, .acquire :: ops => releaseObservations (step o .acquire) ops
  | some o, .release :: ops => releaseObserves o :: releaseObservations (step o .release) ops

/-- Number of acquires in a sequence. -/
def acquires (ops : List RefOp) : Nat :=
  ops.count .acquire

/-- Number of releases in a sequence. -/
def releases (ops : List RefOp) : Nat :=
  ops.count .release

/-- Every release is preceded by a matching unreleased acquire: no initial
segment of the sequence has more releases than acquires. -/
def ReleasesMatched (ops : List RefOp) : Prop :=
  ∀ k, k ≤ ops.length → releases (ops.take k) ≤ acquires (ops.take k)

/-- Fewer than `2 ^ 32` references are outstanding after every initial
segment of the sequence. -/
def OutstandingBounded (ops : List RefOp) : Prop :=
  ∀ k, k ≤ ops.length → acquires (ops.take k) - releases (ops.take k) < U32_SIZE

/-- Every acquire other than the very first operation copies a reference
that some owner still holds: at least one reference is outstanding when it is
performed. -/
def AcquiresFromOwners (ops : List RefOp) : Prop :=
  ∀ k, k < ops.length → 0 < k → ops[k]? = some RefOp.acquire →
    releases (ops.take k) < acquires (ops.take k)

/-! ### Heap, `SharedPtr`, `DynamicObjectCast` -/

/-- Address of an object. -/
abbrev Addr := Nat

/-- The objects that are alive, by address. -/
abbrev Heap := Addr → Option Object

/-- Replaces the content of one address. -/
def Heap.set (h : Heap) (a : Addr) (v : Option Object) : Heap :=
  fun x => if x = a then v else h x

/-- `SharedPtr<T> = boost::intrusive_ptr<T>` (object.h, lines 87-88): a
possibly null pointer whose constructors and destructor call the two
`intrusive_ptr_*` functions above. `none` is `nullptr`. -/
abbrev SharedPtr := Option Addr

/-- Construction of an `intrusive_ptr` from a pointer or by copy:
`if (px != 0) intrusive_ptr_add_ref(px)`.  Undefined (`none`) when the
pointer dangles. -/
def SharedPtr.construct (h : Heap) (p : SharedPtr) : Option Heap :=
  match p with
  | none => some h
  | some a =>
    match h a with
    | none => none
    | some o => some (h.set a (some (intrusive_ptr_add_ref o)))

/-- Destruction of an `intrusive_ptr`: `if (px != 0) intrusive_ptr_release(px)`. -/
def SharedPtr.destruct (h : Heap) (p : SharedPtr) : Option Heap :=
  match p with
  | none => some h
  | some a =>
    match h a with
    | none => none
    | some o => some (h.set a (intrusive_ptr_release o))

/-- Body of `DynamicObjectCast<T>` (object.h, lines 94-100), with
`T::HANDLE_TYPE` passed as `T_HANDLE_TYPE`; `object` is the by-value
parameter.  `boost::static_pointer_cast<T>(object)` builds a new
`intrusive_ptr<T>` from the raw pointer of `object`; `return nullptr` builds
a null one.  Returns the pointer handed back and the heap after the body. -/
def DynamicObjectCast (T_HANDLE_TYPE : HandleType) (h : Heap) (object : SharedPtr) :
    Option (SharedPtr × Heap) :=
  match object with
  | none => some (none, h)
  | some a =>
    match h a with
    | none => none
    | some o =>
      if o.GetHandleType = T_HANDLE_TYPE then
        match SharedPtr.construct h (some a) with
        | none => none
        | some h' => some (some a, h')
      else
        some (none, h)

/-- A call `DynamicObjectCast<T>(arg)` whose argument is passed by copy: the
parameter is copy-constructed from the reference `arg` the caller keeps, the
body runs, the parameter is destroyed when the call returns.  The result
lists the heap after each of the three stages and the pointer returned. -/
def callDynamicObjectCast (T_HANDLE_TYPE : HandleType) (h : Heap) (arg : SharedPtr) :
    Option (Heap × Heap × Heap × SharedPtr) :=
  match SharedPtr.construct h arg with
  | none => none
  | some h1 =>
    match DynamicObjectCast T_HANDLE_TYPE h1 arg with
    | none => none
    | some (r, h2) =>
      match SharedPtr.destruct h2 arg with
      | none => none
      | some h3 => some (h1, h2, h3, r)

/-- A heap holding a single object, at address 0. -/
def Heap.single (o : Object) : Heap :=
  fun x => if x = 0 then some o else none

end Kernel

namespace ConfigureGraphics

/-! ### Resolution setting (configure_graphics.cpp) -/

/-- IEEE-754 binary32 `float`, as its 32-bit pattern. -/
abbrev F32 := Nat

/-- Sign bit. -/
def F32.sign (b : F32) : Nat := b / 2 ^ 31 % 2

/-- Biased exponent field. -/
def F32.exponent (b : F32) : Nat := b / 2 ^ 23 % 256

/-- Fraction field. -/
def F32.fraction (b : F32) : Nat := b % 2 ^ 23

/-- What a binary32 pattern denotes. -/
inductive F32Value where
  | nan
  | inf (negative : Bool)
  | finite (q : ℚ)
  deriving DecidableEq

/-- Magnitude of a finite pattern, in units of `2 ^ (-149)`. -/
def F32.magnitude (b : F32) : Nat :=
  if F32.exponent b = 0 then F32.fraction b
  else (2 ^ 23 + F32.fraction b) * 2 ^ (F32.exponent b - 1)

/-- Decoding of a binary32 pattern. -/
def F32.value (b : F32) : F32Value :=
  if F32.exponent b = 255 then
    if F32.fraction b = 0 then .inf (decide (F32.sign b = 1)) else .nan
  else
    .finite ((if F32.sign b = 1 then -1 else 1) * ((F32.magnitude b : ℚ) / 2 ^ 149))

/-- The C++ comparison `a == b` on `float`: false when either side is a NaN,
otherwise equality of the denoted values (so `-0.f == 0.f`). -/
def F32.eq (a b : F32) : Bool :=
  match F32.value a, F32.value b with
  | .finite x, .finite y => decide (x = y)
  | .inf s, .inf t => decide (s = t)
  | _, _ => false

/-- Literal `0.f`. -/
def F32.lit0 : F32 := 0x00000000
/-- Literal `1.f`. -/
def F32.lit1 : F32 := 0x3F800000
/-- Literal `2.f`. -/
def F32.lit2 : F32 := 0x40000000
/-- Literal `3.f`. -/
def F32.lit3 : F32 := 0x40400000
/-- Literal `4.f`. -/
def F32.lit4 : F32 := 0x40800000

/-- `enum class Resolution : int` (configure_graphics.cpp, lines 12-18), by
its underlying value: `static_cast` from and to `int` is the identity. -/
abbrev Resolution := Int

/-- Enumerator `Resolution::Auto`. -/
def Resolution.Auto : Resolution := 0
/-- Enumerator `Resolution::Scale1x`. -/
def Resolution.Scale1x : Resolution := 1
/-- Enumerator `Resolution::Scale2x`. -/
def Resolution.Scale2x : Resolution := 2
/-- Enumerator `Resolution::Scale3x`. -/
def Resolution.Scale3x : Resolution := 3
/-- Enumerator `Resolution::Scale4x`. -/
def Resolution.Scale4x : Resolution := 4

/-- The five options of the enumeration. -/
def Resolution.options : List Resolution :=
  [Resolution.Auto, Resolution.Scale1x, Resolution.Scale2x, Resolution.Scale3x,
    Resolution.Scale4x]

/-- `ToResolutionFactor` (configure_graphics.cpp, lines 20-34); the last
branch is the `return 0.f` after the `switch`. -/
def ToResolutionFactor (option : Resolution) : F32 :=
  if option = Resolution.Auto then F32.lit0
  else if option = Resolution.Scale1x then F32.lit1
  else if option = Resolution.Scale2x then F32.lit2
  else if option = Resolution.Scale3x then F32.lit3
  else if option = Resolution.Scale4x then F32.lit4
  else F32.lit0

/-- `FromResolutionFactor` (configure_graphics.cpp, lines 36-49). -/
def FromResolutionFactor (factor : F32) : Resolution :=
  if F32.eq factor F32.lit0 then Resolution.Auto
  else if F32.eq factor F32.lit1 then Resolution.Scale1x
  else if F32.eq factor F32.lit2 then Resolution.Scale2x
  else if F32.eq factor F32.lit3 then Resolution.Scale3x
  else if F32.eq factor F32.lit4 then Resolution.Scale4x
  else Resolution.Auto

end ConfigureGraphics

namespace Kernel

/-! ## Theorems -/

theorem u32_size_eq : U32_SIZE = 4294967296 := by
  norm_num [U32_SIZE]

theorem add_ref_ref_count (o : Object) :
    (intrusive_ptr_add_ref o).ref_count = (o.ref_count + 1) % U32_SIZE := by
  simp [intrusive_ptr_add_ref, atomic_fetch_add]

theorem release_eq_none_iff (o : Object) :
    intrusive_ptr_release o = none ↔ o.ref_count = 1 := by
  simp [intrusive_ptr_release, atomic_fetch_sub]

theorem release_of_ne_one (o : Object) (h : o.ref_count ≠ 1) :
    intrusive_ptr_release o =
      some { o with ref_count := (o.ref_count + (U32_SIZE - 1)) % U32_SIZE } := by
  simp [intrusive_ptr_release, atomic_fetch_sub, h, u32_size_eq]

/-- C2: `intrusive_ptr_release` destroys the object exactly when the count it
observes is 1; for every other observed count the object stays alive, every
other field untouched, with its count decremented in `u32` arithmetic (so the
new count plus one is the old count again, and it is literally `c - 1` from
`c = 2` on); `intrusive_ptr_add_ref` never destroys the object, touches no
other field, and increments the count in `u32` arithmetic (literally `c + 1`
below the top value). -/
theorem release_destroys_iff_observed_one (o : Object) (hwf : o.WellFormed) :
    (releaseObserves o = o.ref_count) ∧
    (intrusive_ptr_release o = none ↔ releaseObserves o = 1) ∧
    (releaseObserves o ≠ 1 →
      ∃ o', intrusive_ptr_release o = some o' ∧
        o' = { o with ref_count := o'.ref_count } ∧
        o'.ref_count < U32_SIZE ∧
        (o'.ref_count + 1) % U32_SIZE = o.ref_count ∧
        (2 ≤ o.ref_count → o'.ref_count = o.ref_count - 1)) ∧
    (intrusive_ptr_add_ref o = { o with ref_count := (intrusive_ptr_add_ref o).ref_count } ∧
      (intrusive_ptr_add_ref o).ref_count = (o.ref_count + 1) % U32_SIZE ∧
      (o.ref_count + 1 < U32_SIZE →
        (intrusive_ptr_add_ref o).ref_count = o.ref_count + 1)) := by
  obtain ⟨hc, _⟩ := hwf
  rw [u32_size_eq] at hc
  refine ⟨rfl, ?_, ?_, ?_⟩
  · simp [releaseObserves, atomic_fetch_sub, release_eq_none_iff]
  · intro h1
    have h1' : o.ref_count ≠ 1 := by simpa [releaseObserves, atomic_fetch_sub] using h1
    refine ⟨_, release_of_ne_one o h1', rfl, ?_, ?_, ?_⟩
    · simp only [u32_size_eq]; omega
    · simp only [u32_size_eq]; omega
    · intro h2; simp only [u32_size_eq]; omega
  · refine ⟨rfl, add_ref_ref_count o, ?_⟩
    intro h
    rw [add_ref_ref_count]
    exact Nat.mod_eq_of_lt h

theorem release_destroys_iff_observed_one_witness :
    (intrusive_ptr_release (Object.mk 1 5 HandleType.Process none none) = none ↔
      releaseObserves (Object.mk 1 5 HandleType.Process none none) = 1) ∧
    (Object.mk 1 5 HandleType.Process none none).WellFormed :=
  ⟨(release_destroys_iff_observed_one (Object.mk 1 5 HandleType.Process none none)
      (by simp [Object.WellFormed, U32_SIZE])).2.1,
   by simp [Object.WellFormed, U32_SIZE]⟩

/-- C9: the count is plain `u32` arithmetic without a guard: releasing at
count 0 does not destroy the object and leaves the count at `2 ^ 32 - 1`;
acquiring at count `2 ^ 32 - 1` wraps the count to 0, the object staying
alive. -/
theorem ref_count_wraps_unguarded (o : Object) :
    releaseObserves { o with ref_count := 0 } = 0 ∧
    intrusive_ptr_release { o with ref_count := 0 } =
      some { o with ref_count := 2 ^ 32 - 1 } ∧
    intrusive_ptr_add_ref { o with ref_count := 2 ^ 32 - 1 } =
      { o with ref_count := 0 } ∧
    step { o with ref_count := 2 ^ 32 - 1 } RefOp.acquire =
      some { o with ref_count := 0 } := by
  refine ⟨rfl, ?_, ?_, ?_⟩
  · simp [intrusive_ptr_release, atomic_fetch_sub, u32_size_eq]
  · simp [intrusive_ptr_add_ref, atomic_fetch_add, u32_size_eq]
  · simp [step, intrusive_ptr_add_ref, atomic_fetch_add, u32_size_eq]

/-- C7: for an object whose concrete kind overrides neither function,
`GetTypeName()` and `GetName()` return the fixed strings of the base class,
whatever the reference count, the object id and the handle type are. -/
theorem default_names_are_fixed (o : Object)
    (htn : o.type_name_override = none) (hn : o.name_override = none) :
    o.GetTypeName = "[BAD KERNEL OBJECT TYPE]" ∧
    o.GetName = "[UNKNOWN KERNEL OBJECT]" ∧
    (∀ o' : Object, o'.type_name_override = none → o'.name_override = none →
      o'.GetTypeName = o.GetTypeName ∧ o'.GetName = o.GetName) := by
  refine ⟨?_, ?_, ?_⟩
  · simp [Object.GetTypeName, Object.baseGetTypeName, htn]
  · simp [Object.GetName, Object.baseGetName, hn]
  · intro o' h1 h2
    simp [Object.GetTypeName, Object.baseGetTypeName, Object.GetName, Object.baseGetName,
      htn, hn, h1, h2]

theorem default_names_are_fixed_witness :
    (Object.mk 7 41 HandleType.Thread none none).GetTypeName = "[BAD KERNEL OBJECT TYPE]" ∧
    (Object.mk 7 41 HandleType.Thread none none).GetName = "[UNKNOWN KERNEL OBJECT]" :=
  ⟨(default_names_are_fixed (Object.mk 7 41 HandleType.Thread none none) rfl rfl).1,
   (default_names_are_fixed (Object.mk 7 41 HandleType.Thread none none) rfl rfl).2.1⟩

/-! ### Sequences of operations -/

theorem run_none (ops : List RefOp) :
    run none ops = if ops = [] then some none else none := by
  cases ops <;> simp [run]

theorem run_append (s : Option Object) (xs ys : List RefOp) :
    run s (xs ++ ys) = (run s xs).bind (fun s' => run s' ys) := by
  induction xs generalizing s with
  | nil => simp [run]
  | cons x xs ih =>
    cases s with
    | none => simp [run]
    | some o => simp [run, ih]

theorem run_singleton (o : Object) (op : RefOp) :
    run (some o) [op] = some (step o op) := by
  rw [run, run]

theorem take_succ_of_lt (ops : List RefOp) (k : Nat) (hk : k < ops.length) :
    ∃ op, ops[k]? = some op ∧ ops.take (k + 1) = ops.take k ++ [op] := by
  refine ⟨ops[k], List.getElem?_eq_getElem hk, ?_⟩
  rw [List.take_succ, List.getElem?_eq_getElem hk]
  rfl

theorem acquires_snoc (xs : List RefOp) (op : RefOp) :
    acquires (xs ++ [op]) = acquires xs + (if op = RefOp.acquire then 1 else 0) := by
  cases op <;> simp [acquires, List.count_append, List.count_singleton]

theorem releases_snoc (xs : List RefOp) (op : RefOp) :
    releases (xs ++ [op]) = releases xs + (if op = RefOp.release then 1 else 0) := by
  cases op <;> simp [releases, List.count_append, List.count_singleton]

theorem step_acquire_of_lt (o : Object) (n : Nat) (h : n + 1 < U32_SIZE) :
    step { o with ref_count := n } RefOp.acquire = some { o with ref_count := n + 1 } := by
  simp [step, intrusive_ptr_add_ref, atomic_fetch_add, Nat.mod_eq_of_lt h]

theorem step_release_one (o : Object) :
    step { o with ref_count := 1 } RefOp.release = none := by
  simp [step, intrusive_ptr_release, atomic_fetch_sub]

theorem step_release_of_two_le (o : Object) (n : Nat) (h1 : 2 ≤ n) (h2 : n < U32_SIZE) :
    step { o with ref_count := n } RefOp.release = some { o with ref_count := n - 1 } := by
  rw [u32_size_eq] at h2
  have hne : n ≠ 1 := by omega
  have hmod : (n + 4294967295) % 4294967296 = n - 1 := by omega
  simp [step, intrusive_ptr_release, atomic_fetch_sub, hne, u32_size_eq, hmod]

/-- State of a fresh object after each initial segment of a sequence in which
releases never outnumber acquires and fewer than `2 ^ 32` references are ever
outstanding: undefined once an earlier segment has levelled the counts;
destroyed when this segment is the first to level them; alive, with the
number of outstanding references as its count, otherwise. -/
theorem run_take_cases (o : Object) (ops : List RefOp) (h0 : o.ref_count = 0)
    (hm : ReleasesMatched ops) (hb : OutstandingBounded ops) :
    ∀ k, k ≤ ops.length →
      ((∃ j, 0 < j ∧ j < k ∧ releases (ops.take j) = acquires (ops.take j)) ∧
        run (some o) (ops.take k) = none) ∨
      ((∀ j, 0 < j → j < k → releases (ops.take j) ≠ acquires (ops.take j)) ∧
        0 < k ∧ releases (ops.take k) = acquires (ops.take k) ∧
        run (some o) (ops.take k) = some none) ∨
      ((∀ j, 0 < j → j < k → releases (ops.take j) ≠ acquires (ops.take j)) ∧
        (0 < k → releases (ops.take k) < acquires (ops.take k)) ∧
        run (some o) (ops.take k) =
          some (some { o with ref_count := acquires (ops.take k) - releases (ops.take k) })) := by
  intro k
  induction k with
  | zero =>
    intro _
    right; right
    refine ⟨fun j h1 h2 => absurd h2 (by omega), fun h => absurd h (by omega), ?_⟩
    cases o
    simp only at h0
    subst h0
    simp [run, acquires, releases]
  | succ k ih =>
    intro hk
    obtain ⟨op, _, htake⟩ := take_succ_of_lt ops k (by omega)
    have hmk := hm k (by omega)
    have hbk := hb k (by omega)
    have hmk1 := hm (k + 1) hk
    have hbk1 := hb (k + 1) hk
    rw [htake, acquires_snoc, releases_snoc] at hmk1 hbk1
    rw [htake, acquires_snoc, releases_snoc, run_append]
    rcases ih (by omega) with ⟨⟨j, hj0, hjk, hj⟩, hrun⟩ | ⟨hno, hk0, heq, hrun⟩ | ⟨hno, hlt, hrun⟩
    · left
      exact ⟨⟨j, hj0, by omega, hj⟩, by simp [hrun]⟩
    · left
      exact ⟨⟨k, hk0, by omega, heq⟩, by simp [hrun, run]⟩
    · have hno' : ∀ j, 0 < j → j < k + 1 →
          releases (ops.take j) ≠ acquires (ops.take j) := by
        intro j hj0 hj
        by_cases hjk : j = k
        · subst hjk
          have := hlt hj0
          omega
        · exact hno j hj0 (by omega)
      cases op with
      | acquire =>
        right; right
        simp only [if_true, if_false, reduceCtorEq, Nat.add_zero] at hmk1 hbk1 ⊢
        refine ⟨hno', fun _ => by omega, ?_⟩
        have hstep := step_acquire_of_lt o (acquires (ops.take k) - releases (ops.take k))
          (by omega)
        have hcount : acquires (ops.take k) - releases (ops.take k) + 1 =
            acquires (ops.take k) + 1 - releases (ops.take k) := by omega
        rw [hrun, Option.some_bind, run_singleton, hstep, hcount]
      | release =>
        simp only [if_true, if_false, reduceCtorEq, Nat.add_zero] at hmk1 hbk1 ⊢
        by_cases hone : acquires (ops.take k) - releases (ops.take k) = 1
        · right; left
          refine ⟨hno', by omega, by omega, ?_⟩
          rw [hrun, Option.some_bind, run_singleton, hone, step_release_one]
        · right; right
          refine ⟨hno', fun _ => by omega, ?_⟩
          have hstep := step_release_of_two_le o
            (acquires (ops.take k) - releases (ops.take k)) (by omega) hbk
          have hcount : acquires (ops.take k) - releases (ops.take k) - 1 =
              acquires (ops.take k) - (releases (ops.take k) + 1) := by omega
          rw [hrun, Option.some_bind, run_singleton, hstep, hcount]

theorem acquires_add_releases (ops : List RefOp) :
    acquires ops + releases ops = ops.length := by
  induction ops with
  | nil => rfl
  | cons op ops ih =>
    cases op <;> simp [acquires, releases, List.count_cons] at ih ⊢ <;> omega

/-- Matched releases and fewer than `2 ^ 32` outstanding references alone
determine the run on a fresh object only up to the first initial segment that
levels the counts: the run is defined exactly when no earlier non-empty
segment has levelled them; where it is defined, the object is destroyed at
the end of the segment if and only if the segment has as many releases as
acquires, and at least one; while the object is alive its count is the number
of outstanding references; the object is never alive after a levelled
segment. -/
theorem run_up_to_first_level (o : Object) (ops : List RefOp)
    (h0 : o.ref_count = 0) (hm : ReleasesMatched ops) (hb : OutstandingBounded ops)
    (k : Nat) (hk : k ≤ ops.length) :
    ((∃ s, run (some o) (ops.take k) = some s) ↔
      ∀ j, 0 < j → j < k → releases (ops.take j) ≠ acquires (ops.take j)) ∧
    (∀ s, run (some o) (ops.take k) = some s →
      (s = none ↔
        releases (ops.take k) = acquires (ops.take k) ∧ 1 ≤ releases (ops.take k))) ∧
    (∀ o', run (some o) (ops.take k) = some (some o') →
      o' = { o with ref_count := acquires (ops.take k) - releases (ops.take k) }) ∧
    (releases (ops.take k) = acquires (ops.take k) → 1 ≤ releases (ops.take k) →
      ∀ o', run (some o) (ops.take k) ≠ some (some o')) := by
  have hlen := acquires_add_releases (ops.take k)
  rw [List.length_take, Nat.min_eq_left hk] at hlen
  rcases run_take_cases o ops h0 hm hb k hk with
    ⟨⟨j, hj0, hjk, hj⟩, hrun⟩ | ⟨hno, hk0, heq, hrun⟩ | ⟨hno, hlt, hrun⟩
  · refine ⟨?_, ?_, ?_, ?_⟩
    · constructor
      · rintro ⟨s, hs⟩
        rw [hrun] at hs
        cases hs
      · intro h
        exact absurd hj (h j hj0 hjk)
    · intro s hs
      rw [hrun] at hs
      cases hs
    · intro o' hs
      rw [hrun] at hs
      cases hs
    · intro _ _ o' hs
      rw [hrun] at hs
      cases hs
  · refine ⟨?_, ?_, ?_, ?_⟩
    · exact ⟨fun _ => hno, fun _ => ⟨none, hrun⟩⟩
    · intro s hs
      rw [hrun] at hs
      cases hs
      exact ⟨fun _ => ⟨heq, by omega⟩, fun _ => rfl⟩
    · intro o' hs
      rw [hrun] at hs
      cases hs
    · intro _ _ o' hs
      rw [hrun] at hs
      cases hs
  · have hnot : ¬ (releases (ops.take k) = acquires (ops.take k) ∧
        1 ≤ releases (ops.take k)) := by
      rintro ⟨h1, h2⟩
      have := hlt (by omega)
      omega
    refine ⟨?_, ?_, ?_, ?_⟩
    · exact ⟨fun _ => hno, fun _ => ⟨_, hrun⟩⟩
    · intro s hs
      rw [hrun] at hs
      cases hs
      exact ⟨fun h => (by cases h), fun h => absurd h hnot⟩
    · intro o' hs
      rw [hrun] at hs
      cases hs
      rfl
    · intro h1 h2
      exact (hnot ⟨h1, h2⟩).elim

theorem releaseObservations_append (s : Option Object) (xs ys : List RefOp) :
    releaseObservations s (xs ++ ys) =
      releaseObservations s xs ++
        (match run s xs with
          | some s' => releaseObservations s' ys
          | none => []) := by
  induction xs generalizing s with
  | nil => simp [releaseObservations, run]
  | cons x xs ih =>
    cases s with
    | none => simp [releaseObservations, run]
    | some o =>
      cases x with
      | acquire => simp [releaseObservations, run, ih]
      | release => simp [releaseObservations, run, ih]

theorem releaseObservations_singleton (o : Object) (op : RefOp) :
    releaseObservations (some o) [op] =
      if op = RefOp.release then [releaseObserves o] else [] := by
  cases op <;> simp [releaseObservations]

theorem releaseObservations_none (ops : List RefOp) :
    releaseObservations none ops = [] := by
  cases ops <;> simp [releaseObservations]

/-- In a sequence whose releases are matched and whose outstanding references
stay below `2 ^ 32`, every release applied to the live object observes a
count of at least 1. -/
theorem observations_pos (o : Object) (ops : List RefOp) (h0 : o.ref_count = 0)
    (hm : ReleasesMatched ops) (hb : OutstandingBounded ops) :
    ∀ k, k ≤ ops.length → ∀ v ∈ releaseObservations (some o) (ops.take k), 1 ≤ v := by
  intro k
  induction k with
  | zero =>
    intro _ v hv
    simp [releaseObservations] at hv
  | succ k ih =>
    intro hk v hv
    obtain ⟨op, _, htake⟩ := take_succ_of_lt ops k (by omega)
    have hmk1 := hm (k + 1) hk
    rw [htake, acquires_snoc, releases_snoc] at hmk1
    rw [htake, releaseObservations_append, List.mem_append] at hv
    rcases hv with hv | hv
    · exact ih (by omega) v hv
    · rcases run_take_cases o ops h0 hm hb k (by omega) with
        ⟨_, hrun⟩ | ⟨_, _, _, hrun⟩ | ⟨_, _, hrun⟩
      · rw [hrun] at hv
        simp at hv
      · rw [hrun] at hv
        simp [releaseObservations_none] at hv
      · rw [hrun] at hv
        simp only [releaseObservations_singleton] at hv
        cases op with
        | acquire => simp at hv
        | release =>
          simp only [if_true, if_false, reduceCtorEq, Nat.add_zero] at hmk1
          simp [releaseObserves, atomic_fetch_sub] at hv
          omega

/-- With matched releases and acquires that copy a held reference, the counts
are never level strictly inside the sequence. -/
theorem never_level_inside (ops : List RefOp) (hm : ReleasesMatched ops)
    (ha : AcquiresFromOwners ops) :
    ∀ j, 0 < j → j < ops.length → releases (ops.take j) < acquires (ops.take j) := by
  intro j hj0 hj
  obtain ⟨op, hop, htake⟩ := take_succ_of_lt ops j hj
  cases op with
  | acquire => exact ha j hj hj0 hop
  | release =>
    have h := hm (j + 1) (by omega)
    rw [htake, acquires_snoc, releases_snoc] at h
    simp only [if_true, if_false, reduceCtorEq, Nat.add_zero] at h
    omega

theorem alive_before_each_operation (o : Object) (ops : List RefOp) (h0 : o.ref_count = 0)
    (hm : ReleasesMatched ops) (hb : OutstandingBounded ops) (ha : AcquiresFromOwners ops) :
    ∀ k, k < ops.length → run (some o) (ops.take k) =
      some (some { o with ref_count := acquires (ops.take k) - releases (ops.take k) }) := by
  intro k hk
  have hin := never_level_inside ops hm ha
  rcases run_take_cases o ops h0 hm hb k (by omega) with
    ⟨⟨j, hj0, hjk, hj⟩, _⟩ | ⟨_, hk0, heq, _⟩ | ⟨_, _, hrun⟩
  · have := hin j hj0 (by omega)
    omega
  · have := hin k hk0 hk
    omega
  · exact hrun

/-- C3 (as amended): take a fresh object (count 0) and a sequence of acquires
and releases in which no initial segment has more releases than acquires,
every acquire after the first operation copies a reference that is still
held, and fewer than `2 ^ 32` references are ever outstanding.  Then for
every initial segment, without exception: the run is defined; the object is
destroyed after the segment if and only if the segment has as many releases
as acquires, and at least one; the object is not alive after the segment if
and only if the same holds; and while the object is alive its count is the
number of outstanding references. -/
theorem destroyed_iff_releases_level_acquires (o : Object) (ops : List RefOp)
    (h0 : o.ref_count = 0) (hm : ReleasesMatched ops) (hb : OutstandingBounded ops)
    (ha : AcquiresFromOwners ops) (k : Nat) (hk : k ≤ ops.length) :
    (∃ s, run (some o) (ops.take k) = some s) ∧
    (run (some o) (ops.take k) = some none ↔
      releases (ops.take k) = acquires (ops.take k) ∧ 1 ≤ releases (ops.take k)) ∧
    ((∀ o', run (some o) (ops.take k) ≠ some (some o')) ↔
      releases (ops.take k) = acquires (ops.take k) ∧ 1 ≤ releases (ops.take k)) ∧
    (∀ o', run (some o) (ops.take k) = some (some o') →
      o' = { o with ref_count := acquires (ops.take k) - releases (ops.take k) }) := by
  have hlen := acquires_add_releases (ops.take k)
  rw [List.length_take, Nat.min_eq_left hk] at hlen
  have hin := never_level_inside ops hm ha
  rcases run_take_cases o ops h0 hm hb k hk with
    ⟨⟨j, hj0, hjk, hj⟩, _⟩ | ⟨_, hk0, heq, hrun⟩ | ⟨_, hlt, hrun⟩
  · have := hin j hj0 (by omega)
    omega
  · have hlevel : releases (ops.take k) = acquires (ops.take k) ∧
        1 ≤ releases (ops.take k) := ⟨heq, by omega⟩
    refine ⟨⟨none, hrun⟩, ⟨fun _ => hlevel, fun _ => hrun⟩, ⟨fun _ => hlevel, ?_⟩, ?_⟩
    · intro _ o' hs
      rw [hrun] at hs
      cases hs
    · intro o' hs
      rw [hrun] at hs
      cases hs
  · have hnot : ¬ (releases (ops.take k) = acquires (ops.take k) ∧
        1 ≤ releases (ops.take k)) := by
      rintro ⟨h1, h2⟩
      have := hlt (by omega)
      omega
    refine ⟨⟨_, hrun⟩, ⟨?_, fun h => absurd h hnot⟩, ⟨?_, fun h => absurd h hnot⟩, ?_⟩
    · intro hs
      rw [hrun] at hs
      cases hs
    · intro hall
      exact absurd hrun (hall _)
    · intro o' hs
      rw [hrun] at hs
      cases hs
      rfl

theorem destroyed_iff_releases_level_acquires_witness :
    ReleasesMatched [RefOp.acquire, RefOp.acquire, RefOp.release, RefOp.release] ∧
    OutstandingBounded [RefOp.acquire, RefOp.acquire, RefOp.release, RefOp.release] ∧
    AcquiresFromOwners [RefOp.acquire, RefOp.acquire, RefOp.release, RefOp.release] ∧
    (run (some (Object.mk 0 3 HandleType.Thread none none))
        ([RefOp.acquire, RefOp.acquire, RefOp.release, RefOp.release].take 4) = some none ↔
      releases ([RefOp.acquire, RefOp.acquire, RefOp.release, RefOp.release].take 4) =
        acquires ([RefOp.acquire, RefOp.acquire, RefOp.release, RefOp.release].take 4) ∧
      1 ≤ releases ([RefOp.acquire, RefOp.acquire, RefOp.release, RefOp.release].take 4)) ∧
    (run (some (Object.mk 0 3 HandleType.Thread none none))
        ([RefOp.acquire, RefOp.acquire, RefOp.release, RefOp.release].take 3) = some none ↔
      releases ([RefOp.acquire, RefOp.acquire, RefOp.release, RefOp.release].take 3) =
        acquires ([RefOp.acquire, RefOp.acquire, RefOp.release, RefOp.release].take 3) ∧
      1 ≤ releases ([RefOp.acquire, RefOp.acquire, RefOp.release, RefOp.release].take 3)) ∧
    run (some (Object.mk 0 3 HandleType.Thread none none))
      [RefOp.acquire, RefOp.acquire, RefOp.release, RefOp.release] = some none ∧
    run (some (Object.mk 0 3 HandleType.Thread none none))
      ([RefOp.acquire, RefOp.acquire, RefOp.release, RefOp.release].take 3) =
        some (some (Object.mk 1 3 HandleType.Thread none none)) := by
  have hm : ReleasesMatched [RefOp.acquire, RefOp.acquire, RefOp.release, RefOp.release] := by
    unfold ReleasesMatched; decide
  have hb : OutstandingBounded
      [RefOp.acquire, RefOp.acquire, RefOp.release, RefOp.release] := by
    unfold OutstandingBounded; decide
  have ha : AcquiresFromOwners
      [RefOp.acquire, RefOp.acquire, RefOp.release, RefOp.release] := by
    unfold AcquiresFromOwners; decide
  exact ⟨hm, hb, ha,
    (destroyed_iff_releases_level_acquires (Object.mk 0 3 HandleType.Thread none none)
      [RefOp.acquire, RefOp.acquire, RefOp.release, RefOp.release] rfl hm hb ha 4
      (by decide)).2.1,
    (destroyed_iff_releases_level_acquires (Object.mk 0 3 HandleType.Thread none none)
      [RefOp.acquire, RefOp.acquire, RefOp.release, RefOp.release] rfl hm hb ha 3
      (by decide)).2.1,
    by decide, by decide⟩

/-- C3 fails as stated: `acquire, release, acquire, release` on a fresh object
has every release preceded by a matching unreleased acquire and at most one
reference outstanding, and its second operation destroys the object.  After
the first three operations the object is gone although the segment has 1
release and 2 acquires; and the fourth operation, which levels the counts
again, is not what destroys the object: it is applied to an object that no
longer exists.  So the equivalence fails at the third segment when
"destroyed" means "no longer alive", and at the fourth when it means
"destroyed by a defined run". -/
theorem destroyed_while_counts_differ :
    ReleasesMatched [RefOp.acquire, RefOp.release, RefOp.acquire, RefOp.release] ∧
    OutstandingBounded [RefOp.acquire, RefOp.release, RefOp.acquire, RefOp.release] ∧
    run (some (Object.mk 0 3 HandleType.Thread none none))
      ([RefOp.acquire, RefOp.release, RefOp.acquire, RefOp.release].take 2) = some none ∧
    ¬ ((∀ o', run (some (Object.mk 0 3 HandleType.Thread none none))
          ([RefOp.acquire, RefOp.release, RefOp.acquire, RefOp.release].take 3) ≠
            some (some o')) ↔
        releases ([RefOp.acquire, RefOp.release, RefOp.acquire, RefOp.release].take 3) =
          acquires ([RefOp.acquire, RefOp.release, RefOp.acquire, RefOp.release].take 3) ∧
        1 ≤ releases ([RefOp.acquire, RefOp.release, RefOp.acquire, RefOp.release].take 3)) ∧
    ¬ (run (some (Object.mk 0 3 HandleType.Thread none none))
          ([RefOp.acquire, RefOp.release, RefOp.acquire, RefOp.release].take 4) = some none ↔
        releases ([RefOp.acquire, RefOp.release, RefOp.acquire, RefOp.release].take 4) =
          acquires ([RefOp.acquire, RefOp.release, RefOp.acquire, RefOp.release].take 4) ∧
        1 ≤ releases ([RefOp.acquire, RefOp.release, RefOp.acquire, RefOp.release].take 4)) := by
  have h3 : run (some (Object.mk 0 3 HandleType.Thread none none))
      ([RefOp.acquire, RefOp.release, RefOp.acquire, RefOp.release].take 3) = none := by
    decide
  have h4 : run (some (Object.mk 0 3 HandleType.Thread none none))
      ([RefOp.acquire, RefOp.release, RefOp.acquire, RefOp.release].take 4) = none := by
    decide
  refine ⟨by unfold ReleasesMatched; decide, by unfold OutstandingBounded; decide,
    by decide, ?_, ?_⟩
  · intro hiff
    have hgone : ∀ o', run (some (Object.mk 0 3 HandleType.Thread none none))
        ([RefOp.acquire, RefOp.release, RefOp.acquire, RefOp.release].take 3) ≠
          some (some o') := by
      intro o' hs
      rw [h3] at hs
      cases hs
    have hlevel := (hiff.mp hgone).1
    revert hlevel
    decide
  · intro hiff
    have hrun := hiff.mpr ⟨by decide, by decide⟩
    rw [h4] at hrun
    cases hrun

theorem observations_length (o : Object) (ops : List RefOp) (h0 : o.ref_count = 0)
    (hm : ReleasesMatched ops) (hb : OutstandingBounded ops) (ha : AcquiresFromOwners ops) :
    ∀ k, k ≤ ops.length →
      (releaseObservations (some o) (ops.take k)).length = releases (ops.take k) := by
  intro k
  induction k with
  | zero =>
    intro _
    simp [releaseObservations, releases]
  | succ k ih =>
    intro hk
    obtain ⟨op, _, htake⟩ := take_succ_of_lt ops k (by omega)
    rw [htake, releaseObservations_append, releases_snoc, List.length_append, ih (by omega),
      alive_before_each_operation o ops h0 hm hb ha k (by omega)]
    simp only [releaseObservations_singleton]
    cases op <;> simp

/-- C4 (as amended): on a fresh object, let every release be matched by an
earlier unreleased acquire, let fewer than `2 ^ 32` references be outstanding
at any time, and let every acquire after the first operation copy a reference
that is still held.  Then every operation of the sequence finds the object
alive (none is applied after a destroying release, so the object is destroyed
at most once, by the last operation), the whole run is defined, every release
of the sequence is performed on the live object, and none of them observes a
count of 0. -/
theorem no_underflow_and_no_use_after_destroy (o : Object) (ops : List RefOp)
    (h0 : o.ref_count = 0) (hm : ReleasesMatched ops) (hb : OutstandingBounded ops)
    (ha : AcquiresFromOwners ops) :
    (∀ k, k < ops.length → ∃ o', run (some o) (ops.take k) = some (some o')) ∧
    (∃ s, run (some o) ops = some s) ∧
    (releaseObservations (some o) ops).length = releases ops ∧
    0 ∉ releaseObservations (some o) ops := by
  refine ⟨?_, ?_, ?_, ?_⟩
  · intro k hk
    exact ⟨_, alive_before_each_operation o ops h0 hm hb ha k hk⟩
  · have hin := never_level_inside ops hm ha
    rcases run_take_cases o ops h0 hm hb ops.length (Nat.le_refl _) with
      ⟨⟨j, hj0, hjk, hj⟩, _⟩ | ⟨_, _, _, hrun⟩ | ⟨_, _, hrun⟩
    · have := hin j hj0 hjk
      omega
    · rw [List.take_length] at hrun
      exact ⟨_, hrun⟩
    · rw [List.take_length] at hrun
      exact ⟨_, hrun⟩
  · have h := observations_length o ops h0 hm hb ha ops.length (Nat.le_refl _)
    rwa [List.take_length] at h
  · intro hmem
    have h := observations_pos o ops h0 hm hb ops.length (Nat.le_refl _) 0
    rw [List.take_length] at h
    exact absurd (h hmem) (by omega)

theorem no_underflow_and_no_use_after_destroy_witness :
    (∃ s, run (some (Object.mk 0 3 HandleType.Thread none none))
      [RefOp.acquire, RefOp.acquire, RefOp.release, RefOp.acquire, RefOp.release,
        RefOp.release] = some s) ∧
    0 ∉ releaseObservations (some (Object.mk 0 3 HandleType.Thread none none))
      [RefOp.acquire, RefOp.acquire, RefOp.release, RefOp.acquire, RefOp.release,
        RefOp.release] :=
  ⟨(no_underflow_and_no_use_after_destroy (Object.mk 0 3 HandleType.Thread none none)
      [RefOp.acquire, RefOp.acquire, RefOp.release, RefOp.acquire, RefOp.release,
        RefOp.release] rfl (by unfold ReleasesMatched; decide)
      (by unfold OutstandingBounded; decide) (by unfold AcquiresFromOwners; decide)).2.1,
   (no_underflow_and_no_use_after_destroy (Object.mk 0 3 HandleType.Thread none none)
      [RefOp.acquire, RefOp.acquire, RefOp.release, RefOp.acquire, RefOp.release,
        RefOp.release] rfl (by unfold ReleasesMatched; decide)
      (by unfold OutstandingBounded; decide) (by unfold AcquiresFromOwners; decide)).2.2.2⟩

theorem run_replicate_acquire (n : Nat) (o : Object) (h : o.ref_count < U32_SIZE) :
    run (some o) (List.replicate n RefOp.acquire) =
      some (some { o with ref_count := (o.ref_count + n) % U32_SIZE }) := by
  induction n generalizing o with
  | zero =>
    simp [run, Nat.mod_eq_of_lt h]
  | succ n ih =>
    rw [List.replicate_succ, run]
    have hlt : (intrusive_ptr_add_ref o).ref_count < U32_SIZE := by
      rw [add_ref_ref_count]
      exact Nat.mod_lt _ (by norm_num [U32_SIZE])
    show run (some (intrusive_ptr_add_ref o)) (List.replicate n RefOp.acquire) = _
    rw [ih _ hlt, add_ref_ref_count]
    have hmod : ((o.ref_count + 1) % U32_SIZE + n) % U32_SIZE =
        (o.ref_count + (n + 1)) % U32_SIZE := by
      rw [u32_size_eq]; omega
    rw [hmod]
    rfl

theorem releaseObservations_replicate_acquire (n : Nat) (s : Option Object) :
    releaseObservations s (List.replicate n RefOp.acquire) = [] := by
  induction n generalizing s with
  | zero => simp [releaseObservations]
  | succ n ih =>
    cases s with
    | none => simp [releaseObservations_none]
    | some o => rw [List.replicate_succ, releaseObservations, ih]

theorem take_replicate_snoc (n k : Nat) (hk : k ≤ n) :
    (List.replicate n RefOp.acquire ++ [RefOp.release]).take k =
      List.replicate k RefOp.acquire := by
  rw [List.take_append_of_le_length (by simpa using hk), List.take_replicate,
    Nat.min_eq_left hk]

/-- After `n` acquires on a fresh object, a release by one of the `n` owners
observes `n` reduced modulo `2 ^ 32`. -/
theorem observations_after_acquires (n : Nat) (hn : 1 ≤ n) (o : Object) (h0 : o.ref_count = 0) :
    ReleasesMatched (List.replicate n RefOp.acquire ++ [RefOp.release]) ∧
    AcquiresFromOwners (List.replicate n RefOp.acquire ++ [RefOp.release]) ∧
    releaseObservations (some o) (List.replicate n RefOp.acquire ++ [RefOp.release]) =
      [n % U32_SIZE] := by
  refine ⟨?_, ?_, ?_⟩
  · intro k hk
    by_cases hkn : k ≤ n
    · rw [take_replicate_snoc n k hkn]
      simp [releases, List.count_replicate]
    · rw [List.take_of_length_le (by simp; omega)]
      simp [releases, acquires, List.count_replicate]
      exact hn
  · intro k hk hk0 _
    have hkn : k ≤ n := by
      simp at hk; omega
    rw [take_replicate_snoc n k hkn]
    simp [releases, acquires, List.count_replicate]
    exact hk0
  · rw [releaseObservations_append, releaseObservations_replicate_acquire,
      run_replicate_acquire n o (by rw [h0]; norm_num [U32_SIZE])]
    simp [releaseObservations_singleton, releaseObserves, atomic_fetch_sub, h0]

/-- C4 fails as stated, on two counts.  With `2 ^ 32` owners acquiring a
fresh object the count wraps to 0, and the release of any one of them, an
owner that acquired and has not released, observes 0.  And in
`acquire, release, acquire, release`, where each release follows its own
acquire, the second release destroys the object and the third operation is
applied after it. -/
theorem release_observes_zero_after_wrap :
    (ReleasesMatched (List.replicate (2 ^ 32) RefOp.acquire ++ [RefOp.release]) ∧
      AcquiresFromOwners (List.replicate (2 ^ 32) RefOp.acquire ++ [RefOp.release]) ∧
      releaseObservations (some (Object.mk 0 3 HandleType.Thread none none))
        (List.replicate (2 ^ 32) RefOp.acquire ++ [RefOp.release]) = [0]) ∧
    (ReleasesMatched [RefOp.acquire, RefOp.release, RefOp.acquire, RefOp.release] ∧
      OutstandingBounded [RefOp.acquire, RefOp.release, RefOp.acquire, RefOp.release] ∧
      run (some (Object.mk 0 3 HandleType.Thread none none))
        ([RefOp.acquire, RefOp.release, RefOp.acquire, RefOp.release].take 2) = some none ∧
      run (some (Object.mk 0 3 HandleType.Thread none none))
        ([RefOp.acquire, RefOp.release, RefOp.acquire, RefOp.release].take 3) = none) := by
  constructor
  · have h := observations_after_acquires (2 ^ 32) (Nat.one_le_two_pow)
      (Object.mk 0 3 HandleType.Thread none none) rfl
    have hz : 2 ^ 32 % U32_SIZE = 0 := by norm_num [U32_SIZE]
    rw [hz] at h
    exact h
  · refine ⟨by unfold ReleasesMatched; decide, by unfold OutstandingBounded; decide,
      by decide, by decide⟩

/-- The object id, the handle type and the overrides are untouched by every
operation that leaves the object alive. -/
theorem step_frame (o o' : Object) (op : RefOp) (h : step o op = some o') :
    o' = { o with ref_count := o'.ref_count } := by
  cases op with
  | acquire =>
    simp only [step, Option.some.injEq] at h
    subst h
    rfl
  | release =>
    simp only [step, intrusive_ptr_release] at h
    split at h
    · cases h
    · simp only [Option.some.injEq] at h
      subst h
      rfl

theorem run_frame (ops : List RefOp) (o o' : Object)
    (h : run (some o) ops = some (some o')) :
    o' = { o with ref_count := o'.ref_count } := by
  induction ops generalizing o with
  | nil =>
    simp only [run, Option.some.injEq] at h
    subst h
    rfl
  | cons op ops ih =>
    rw [run] at h
    cases hs : step o op with
    | none =>
      rw [hs, run_none] at h
      split at h <;> cases h
    | some o1 =>
      rw [hs] at h
      have h1 := ih o1 h
      have h2 := step_frame o o1 op hs
      rw [h1, h2]

/-- C6: `GetObjectId()` returns the stored identifier and leaves the object
exactly as it was (identifier and reference count included); the value it
returns is the same after an `intrusive_ptr_add_ref`, after an
`intrusive_ptr_release` that does not destroy the object, and after any
sequence of such operations that leaves the object alive. -/
theorem getObjectId_stable (o o' : Object) (ops : List RefOp)
    (hrun : run (some o) ops = some (some o')) :
    o.GetObjectId.1 = o.object_id ∧
    o.GetObjectId.2 = o ∧
    (intrusive_ptr_add_ref o).GetObjectId.1 = o.GetObjectId.1 ∧
    (∀ o1, intrusive_ptr_release o = some o1 → o1.GetObjectId.1 = o.GetObjectId.1) ∧
    o'.GetObjectId.1 = o.GetObjectId.1 := by
  refine ⟨rfl, rfl, rfl, ?_, ?_⟩
  · intro o1 h1
    have h := step_frame o o1 RefOp.release h1
    rw [h]
    rfl
  · have h := run_frame ops o o' hrun
    rw [h]
    rfl

theorem getObjectId_stable_witness :
    (Object.mk 1 77 HandleType.Process none none).GetObjectId.1 = 77 ∧
    (Object.mk 2 77 HandleType.Process none none).GetObjectId.1 =
      (Object.mk 1 77 HandleType.Process none none).GetObjectId.1 :=
  ⟨(getObjectId_stable (Object.mk 1 77 HandleType.Process none none)
      (Object.mk 2 77 HandleType.Process none none)
      [RefOp.acquire, RefOp.acquire, RefOp.release] (by decide)).1,
   (getObjectId_stable (Object.mk 1 77 HandleType.Process none none)
      (Object.mk 2 77 HandleType.Process none none)
      [RefOp.acquire, RefOp.acquire, RefOp.release] (by decide)).2.2.2.2⟩

/-! ### Downcast -/

theorem heap_set_same (h : Heap) (a : Addr) (v : Option Object) : (h.set a v) a = v := by
  simp [Heap.set]

theorem heap_set_other (h : Heap) (a b : Addr) (v : Option Object) (hab : b ≠ a) :
    (h.set a v) b = h b := by
  simp [Heap.set, hab]

theorem dynamicObjectCast_match (T : HandleType) (h : Heap) (a : Addr) (o : Object)
    (ha : h a = some o) (ht : o.GetHandleType = T) :
    DynamicObjectCast T h (some a) =
      some (some a, h.set a (some (intrusive_ptr_add_ref o))) := by
  simp [DynamicObjectCast, SharedPtr.construct, ha, ht]

theorem dynamicObjectCast_mismatch (T : HandleType) (h : Heap) (a : Addr) (o : Object)
    (ha : h a = some o) (ht : o.GetHandleType ≠ T) :
    DynamicObjectCast T h (some a) = some (none, h) := by
  simp [DynamicObjectCast, ha, ht]

/-- C1: for a shared reference `object` that is null or refers to a live
object, `DynamicObjectCast<T>(object)` returns normally; the pointer returned
is non-null if and only if `object` is non-null and
`object->GetHandleType() == T::HANDLE_TYPE`; a non-null result is the very
pointer passed in, the object behind it being the same object with one more
reference; for a null input and for every target kind whose tag differs from
the tag of the object the result is the null pointer and the heap is left as
it was. -/
theorem dynamicObjectCast_nonnull_iff (T : HandleType) (h : Heap) (object : SharedPtr)
    (hvalid : ∀ a, object = some a → ∃ o, h a = some o) :
    ∃ r h', DynamicObjectCast T h object = some (r, h') ∧
      (r ≠ none ↔ ∃ a o, object = some a ∧ h a = some o ∧ o.GetHandleType = T) ∧
      (r ≠ none → r = object) ∧
      (∀ a, r = some a → ∃ o, h a = some o ∧
        h' = h.set a (some { o with ref_count := (o.ref_count + 1) % U32_SIZE })) ∧
      (object = none → r = none) ∧
      (∀ a o, object = some a → h a = some o → o.GetHandleType ≠ T → r = none) ∧
      (r = none → h' = h) := by
  cases object with
  | none =>
    exact ⟨none, h, rfl, by simp, by simp, by simp, by simp, by simp, by simp⟩
  | some a =>
    obtain ⟨o, ho⟩ := hvalid a rfl
    by_cases ht : o.GetHandleType = T
    · refine ⟨some a, _, dynamicObjectCast_match T h a o ho ht, ?_, ?_, ?_, ?_, ?_, ?_⟩
      · simp [ho, ht]
      · simp
      · intro b hb
        cases hb
        exact ⟨o, ho, by simp [intrusive_ptr_add_ref, atomic_fetch_add]⟩
      · simp
      · intro b o' hb ho' hne
        cases hb
        rw [ho] at ho'
        cases ho'
        exact absurd ht hne
      · simp
    · refine ⟨none, h, dynamicObjectCast_mismatch T h a o ho ht, ?_, ?_, ?_, ?_, ?_, ?_⟩
      · simp [ho, ht]
      · simp
      · simp
      · simp
      · simp
      · simp

theorem dynamicObjectCast_nonnull_iff_witness :
    DynamicObjectCast HandleType.Thread
        (Heap.single (Object.mk 1 9 HandleType.Thread none none)) (some 0) ≠ none ∧
    ∃ r h', DynamicObjectCast HandleType.Process
        (Heap.single (Object.mk 1 9 HandleType.Thread none none)) (some 0) = some (r, h') ∧
      (r ≠ none ↔ ∃ a o, some 0 = some a ∧
        Heap.single (Object.mk 1 9 HandleType.Thread none none) a = some o ∧
        o.GetHandleType = HandleType.Process) := by
  refine ⟨by simp [DynamicObjectCast, Heap.single, SharedPtr.construct, Object.GetHandleType], ?_⟩
  obtain ⟨r, h', h1, h2, _⟩ := dynamicObjectCast_nonnull_iff HandleType.Process
    (Heap.single (Object.mk 1 9 HandleType.Thread none none)) (some 0)
    (by intro a ha; cases ha; exact ⟨_, rfl⟩)
  exact ⟨r, h', h1, h2⟩

/-- Acquiring and then releasing gives the object back, as long as the caller
holds a reference of its own. -/
theorem release_add_ref (o : Object) (h1 : 1 ≤ o.ref_count) (h2 : o.ref_count < U32_SIZE) :
    intrusive_ptr_release (intrusive_ptr_add_ref o) = some o := by
  rw [u32_size_eq] at h2
  have hne : (intrusive_ptr_add_ref o).ref_count ≠ 1 := by
    rw [add_ref_ref_count, u32_size_eq]; omega
  rw [release_of_ne_one _ hne]
  have hc : ((intrusive_ptr_add_ref o).ref_count + (U32_SIZE - 1)) % U32_SIZE = o.ref_count := by
    rw [add_ref_ref_count, u32_size_eq]; omega
  rw [hc]
  simp [intrusive_ptr_add_ref]

theorem add_ref_of_lt (o : Object) (h : o.ref_count + 1 < U32_SIZE) :
    intrusive_ptr_add_ref o = { o with ref_count := o.ref_count + 1 } := by
  simp [intrusive_ptr_add_ref, atomic_fetch_add, Nat.mod_eq_of_lt h]

/-- C8 (as amended): let the caller hold a reference to a live object with
count `c`, `1 ≤ c < 2 ^ 32`, and pass it by copy.  The call returns; the
object is alive after the copy, after the body and after the call; a failed
cast leaves the object exactly as it was (count `c`); a successful cast, for
`c < 2 ^ 32 - 1`, leaves the count at exactly `c + 1` and nothing else
changed; no other object is touched. -/
theorem call_cast_ref_count_neutral (T : HandleType) (h : Heap) (a : Addr) (o : Object)
    (ha : h a = some o) (hc1 : 1 ≤ o.ref_count) (hc2 : o.ref_count < U32_SIZE)
    (hc3 : o.GetHandleType = T → o.ref_count + 1 < U32_SIZE) :
    ∃ h1 h2 h3 r, callDynamicObjectCast T h (some a) = some (h1, h2, h3, r) ∧
      (h1 a ≠ none ∧ h2 a ≠ none ∧ h3 a ≠ none) ∧
      (r = none ↔ o.GetHandleType ≠ T) ∧
      (r = none → h3 a = some o) ∧
      (r ≠ none → r = some a ∧ h3 a = some { o with ref_count := o.ref_count + 1 }) ∧
      (∀ b, b ≠ a → h3 b = h b) := by
  have hcopy : SharedPtr.construct h (some a) =
      some (h.set a (some (intrusive_ptr_add_ref o))) := by
    simp [SharedPtr.construct, ha]
  by_cases ht : o.GetHandleType = T
  · have hlt := hc3 ht
    have hbody := dynamicObjectCast_match T (h.set a (some (intrusive_ptr_add_ref o))) a
      (intrusive_ptr_add_ref o) (heap_set_same _ _ _) ht
    have hrel : intrusive_ptr_release (intrusive_ptr_add_ref (intrusive_ptr_add_ref o)) =
        some (intrusive_ptr_add_ref o) := by
      apply release_add_ref
      · rw [add_ref_of_lt o hlt]; simp
      · rw [add_ref_of_lt o hlt]; exact hlt
    refine ⟨h.set a (some (intrusive_ptr_add_ref o)),
      (h.set a (some (intrusive_ptr_add_ref o))).set a
        (some (intrusive_ptr_add_ref (intrusive_ptr_add_ref o))),
      ((h.set a (some (intrusive_ptr_add_ref o))).set a
        (some (intrusive_ptr_add_ref (intrusive_ptr_add_ref o)))).set a
        (some (intrusive_ptr_add_ref o)), some a, ?_, ?_, ?_, ?_, ?_, ?_⟩
    · simp [callDynamicObjectCast, hcopy, hbody, SharedPtr.destruct, heap_set_same, hrel]
    · simp [heap_set_same]
    · simp [ht]
    · simp
    · intro _
      exact ⟨rfl, by rw [heap_set_same, add_ref_of_lt o hlt]⟩
    · intro b hb
      simp [heap_set_other _ _ _ _ hb]
  · have hbody := dynamicObjectCast_mismatch T (h.set a (some (intrusive_ptr_add_ref o))) a
      (intrusive_ptr_add_ref o) (heap_set_same _ _ _) ht
    have hrel := release_add_ref o hc1 hc2
    refine ⟨h.set a (some (intrusive_ptr_add_ref o)), h.set a (some (intrusive_ptr_add_ref o)),
      (h.set a (some (intrusive_ptr_add_ref o))).set a (some o), none,
      ?_, ?_, ?_, ?_, ?_, ?_⟩
    · simp [callDynamicObjectCast, hcopy, hbody, SharedPtr.destruct, heap_set_same, hrel]
    · simp [heap_set_same]
    · simp [ht]
    · intro _
      exact heap_set_same _ _ _
    · simp
    · intro b hb
      simp [heap_set_other _ _ _ _ hb]

theorem call_cast_ref_count_neutral_witness :
    ∃ h1 h2 h3 r, callDynamicObjectCast HandleType.Thread
        (Heap.single (Object.mk 2 9 HandleType.Thread none none)) (some 0) =
          some (h1, h2, h3, r) ∧
      (h1 0 ≠ none ∧ h2 0 ≠ none ∧ h3 0 ≠ none) ∧
      (r ≠ none → r = some 0 ∧ h3 0 = some (Object.mk 3 9 HandleType.Thread none none)) := by
  obtain ⟨h1, h2, h3, r, hcall, hlive, _, _, hsucc, _⟩ :=
    call_cast_ref_count_neutral HandleType.Thread
      (Heap.single (Object.mk 2 9 HandleType.Thread none none)) 0
      (Object.mk 2 9 HandleType.Thread none none) rfl (by decide)
      (by simp [U32_SIZE]) (by intro _; simp [U32_SIZE])
  exact ⟨h1, h2, h3, r, hcall, hlive, hsucc⟩

/-- C8 fails at the top count: a live object with count `2 ^ 32 - 1` whose
caller passes its reference by copy to a matching `DynamicObjectCast` is
destroyed when the call returns (the copy wraps the count to 0, the returned
reference makes it 1, the destruction of the parameter observes 1). -/
theorem call_cast_destroys_at_top_count :
    Heap.single (Object.mk 4294967295 9 HandleType.Thread none none) 0 =
      some (Object.mk 4294967295 9 HandleType.Thread none none) ∧
    1 ≤ (Object.mk 4294967295 9 HandleType.Thread none none).ref_count ∧
    (Object.mk 4294967295 9 HandleType.Thread none none).WellFormed ∧
    ∃ h1 h2 h3, callDynamicObjectCast HandleType.Thread
        (Heap.single (Object.mk 4294967295 9 HandleType.Thread none none)) (some 0) =
          some (h1, h2, h3, some 0) ∧
      h1 0 = some (Object.mk 0 9 HandleType.Thread none none) ∧
      h2 0 = some (Object.mk 1 9 HandleType.Thread none none) ∧
      h3 0 = none := by
  refine ⟨rfl, by decide, by simp [Object.WellFormed, U32_SIZE], ?_⟩
  refine ⟨(Heap.single (Object.mk 4294967295 9 HandleType.Thread none none)).set 0
      (some (Object.mk 0 9 HandleType.Thread none none)),
    ((Heap.single (Object.mk 4294967295 9 HandleType.Thread none none)).set 0
      (some (Object.mk 0 9 HandleType.Thread none none))).set 0
      (some (Object.mk 1 9 HandleType.Thread none none)),
    (((Heap.single (Object.mk 4294967295 9 HandleType.Thread none none)).set 0
      (some (Object.mk 0 9 HandleType.Thread none none))).set 0
      (some (Object.mk 1 9 HandleType.Thread none none))).set 0 none, ?_, ?_, ?_, ?_⟩
  · simp [callDynamicObjectCast, SharedPtr.construct, SharedPtr.destruct, DynamicObjectCast,
      Heap.single, heap_set_same, Object.GetHandleType, intrusive_ptr_add_ref,
      intrusive_ptr_release, atomic_fetch_add, atomic_fetch_sub, U32_SIZE]
  · simp [heap_set_same]
  · simp [heap_set_same]
  · simp [heap_set_same]

end Kernel

namespace ConfigureGraphics

/-! ### Resolution setting -/

theorem value_lit0 : F32.value F32.lit0 = .finite 0 := by
  norm_num [F32.value, F32.lit0, F32.exponent, F32.fraction, F32.sign, F32.magnitude]

theorem value_lit1 : F32.value F32.lit1 = .finite 1 := by
  norm_num [F32.value, F32.lit1, F32.exponent, F32.fraction, F32.sign, F32.magnitude]

theorem value_lit2 : F32.value F32.lit2 = .finite 2 := by
  norm_num [F32.value, F32.lit2, F32.exponent, F32.fraction, F32.sign, F32.magnitude]

theorem value_lit3 : F32.value F32.lit3 = .finite 3 := by
  norm_num [F32.value, F32.lit3, F32.exponent, F32.fraction, F32.sign, F32.magnitude]

theorem value_lit4 : F32.value F32.lit4 = .finite 4 := by
  norm_num [F32.value, F32.lit4, F32.exponent, F32.fraction, F32.sign, F32.magnitude]

/-- Comparing with a finite literal succeeds exactly on the patterns that
denote the value of the literal. -/
theorem f32_eq_finite_iff (f lit : F32) (q : ℚ) (hl : F32.value lit = .finite q) :
    F32.eq f lit = true ↔ F32.value f = .finite q := by
  unfold F32.eq
  rw [hl]
  cases hv : F32.value f <;> simp

/-- `FromResolutionFactor` as a function of the value the factor denotes. -/
theorem fromResolutionFactor_by_value (f : F32) :
    FromResolutionFactor f =
      if F32.value f = .finite 0 then Resolution.Auto
      else if F32.value f = .finite 1 then Resolution.Scale1x
      else if F32.value f = .finite 2 then Resolution.Scale2x
      else if F32.value f = .finite 3 then Resolution.Scale3x
      else if F32.value f = .finite 4 then Resolution.Scale4x
      else Resolution.Auto := by
  unfold FromResolutionFactor
  simp only [f32_eq_finite_iff f _ _ value_lit0, f32_eq_finite_iff f _ _ value_lit1,
    f32_eq_finite_iff f _ _ value_lit2, f32_eq_finite_iff f _ _ value_lit3,
    f32_eq_finite_iff f _ _ value_lit4]

/-- C10: `FromResolutionFactor (ToResolutionFactor r) = r` for each of the
five options; `ToResolutionFactor` maps them to the floats that denote exactly
0, 1, 2, 3, 4, hence is injective on them; every factor that denotes none of
0, 1, 2, 3, 4 (any other number, an infinity, a NaN) is mapped to `Auto`. -/
theorem resolution_factor_round_trip :
    (∀ r ∈ Resolution.options, FromResolutionFactor (ToResolutionFactor r) = r) ∧
    (F32.value (ToResolutionFactor Resolution.Auto) = .finite 0 ∧
      F32.value (ToResolutionFactor Resolution.Scale1x) = .finite 1 ∧
      F32.value (ToResolutionFactor Resolution.Scale2x) = .finite 2 ∧
      F32.value (ToResolutionFactor Resolution.Scale3x) = .finite 3 ∧
      F32.value (ToResolutionFactor Resolution.Scale4x) = .finite 4) ∧
    (∀ r ∈ Resolution.options, ∀ r' ∈ Resolution.options,
      ToResolutionFactor r = ToResolutionFactor r' → r = r') ∧
    (∀ f : F32, F32.value f ≠ .finite 0 → F32.value f ≠ .finite 1 →
      F32.value f ≠ .finite 2 → F32.value f ≠ .finite 3 → F32.value f ≠ .finite 4 →
      FromResolutionFactor f = Resolution.Auto) := by
  have t0 : ToResolutionFactor Resolution.Auto = F32.lit0 := by
    simp [ToResolutionFactor]
  have t1 : ToResolutionFactor Resolution.Scale1x = F32.lit1 := by
    simp [ToResolutionFactor, Resolution.Auto, Resolution.Scale1x]
  have t2 : ToResolutionFactor Resolution.Scale2x = F32.lit2 := by
    simp [ToResolutionFactor, Resolution.Auto, Resolution.Scale1x, Resolution.Scale2x]
  have t3 : ToResolutionFactor Resolution.Scale3x = F32.lit3 := by
    simp [ToResolutionFactor, Resolution.Auto, Resolution.Scale1x, Resolution.Scale2x,
      Resolution.Scale3x]
  have t4 : ToResolutionFactor Resolution.Scale4x = F32.lit4 := by
    simp [ToResolutionFactor, Resolution.Auto, Resolution.Scale1x, Resolution.Scale2x,
      Resolution.Scale3x, Resolution.Scale4x]
  have hround : ∀ r ∈ Resolution.options, FromResolutionFactor (ToResolutionFactor r) = r := by
    intro r hr
    simp only [Resolution.options, List.mem_cons, List.mem_singleton, List.not_mem_nil,
      or_false] at hr
    rcases hr with h | h | h | h | h <;> subst h
    · rw [t0, fromResolutionFactor_by_value, value_lit0]; simp
    · rw [t1, fromResolutionFactor_by_value, value_lit1]; simp
    · rw [t2, fromResolutionFactor_by_value, value_lit2]; simp
    · rw [t3, fromResolutionFactor_by_value, value_lit3]; simp
    · rw [t4, fromResolutionFactor_by_value, value_lit4]; simp
  refine ⟨hround, ?_, ?_, ?_⟩
  · rw [t0, t1, t2, t3, t4]
    exact ⟨value_lit0, value_lit1, value_lit2, value_lit3, value_lit4⟩
  · intro r hr r' hr' h
    rw [← hround r hr, ← hround r' hr', h]
  · intro f h0 h1 h2 h3 h4
    rw [fromResolutionFactor_by_value]
    simp [h0, h1, h2, h3, h4]

theorem resolution_factor_round_trip_witness :
    FromResolutionFactor (ToResolutionFactor Resolution.Scale3x) = Resolution.Scale3x ∧
    F32.value 0x40A00000 = .finite 5 ∧
    FromResolutionFactor 0x40A00000 = Resolution.Auto ∧
    FromResolutionFactor 0x7FC00000 = Resolution.Auto := by
  have v5 : F32.value 0x40A00000 = .finite 5 := by
    norm_num [F32.value, F32.exponent, F32.fraction, F32.sign, F32.magnitude]
  have vnan : F32.value 0x7FC00000 = .nan := by
    norm_num [F32.value, F32.exponent, F32.fraction, F32.sign, F32.magnitude]
  refine ⟨resolution_factor_round_trip.1 _ (by simp [Resolution.options]), v5,
    resolution_factor_round_trip.2.2.2 _ ?_ ?_ ?_ ?_ ?_,
    resolution_factor_round_trip.2.2.2 _ ?_ ?_ ?_ ?_ ?_⟩
  all_goals first
    | (rw [v5]; intro h; injection h with h; norm_num at h)
    | (rw [vnan]; intro h; cases h)

end ConfigureGraphics
